import Mathlib

/-!
# Notion-to-OpenAI proxy: a shallow embedding of `models.js` and `index.js`

The development has three layers.

* A small model of the JavaScript values and built-ins the two files use
  (`JSValue`, property reads, `split`, `trim`, `JSON.parse`, `Buffer.from`,
  `crypto.timingSafeEqual`).
* The functions of `models.js` and `index.js`, one Lean definition per source
  function, with exceptions made explicit (`Except JSError`) and the calls on
  the Express response and on `axios` recorded in an effect log.
* The theorems about those definitions.

JavaScript strings are modelled by `String` (sequences of Unicode scalar
values).  The host built-ins whose result the program cannot determine
(`JSON.parse`, `JSON.stringify`, `uuidv4`, `Date.now`) are fields of `Host`, so
every universally quantified theorem holds for all of their behaviours;
`JSON.parse` additionally has a reference implementation used to evaluate the
program on concrete inputs.
-/

namespace NotionProxy

/-! ## JavaScript values -/

/-- A JSON number literal `mantissa * 10 ^ exp10`; it denotes the IEEE-754
double nearest to that value. -/
structure JSNumber where
  mantissa : Int
  exp10 : Int
  deriving DecidableEq, Repr

/-- The JavaScript values of the program: JSON data and `undefined`. An object
is the list of its own properties in insertion order. -/
inductive JSValue where
  | undefined
  | null
  | bool (b : Bool)
  | num (x : JSNumber)
  | str (s : String)
  | arr (items : List JSValue)
  | obj (fields : List (String × JSValue))
  deriving Repr

/-- The exceptions the program can meet. -/
inductive JSError where
  | Error (message : String)
  | TypeError (message : String)
  | RangeError (message : String)
  | SyntaxError (message : String)
  deriving DecidableEq, Repr

/-- The `message` property of an exception. -/
def JSError.message : JSError → String
  | .Error m => m
  | .TypeError m => m
  | .RangeError m => m
  | .SyntaxError m => m

namespace JSValue

/-- An integer as a JavaScript number. -/
def ofNat (n : Nat) : JSValue := num ⟨n, 0⟩

/-- Whether a number is `+0` or `-0`: the literal is zero, or it is at most
`2 ^ (-1075)` in magnitude and rounds to zero. -/
def isZero (x : JSNumber) : Bool :=
  x.mantissa == 0 ||
    (decide (x.exp10 < 0) &&
      decide (x.mantissa.natAbs * 2 ^ 1075 ≤ 10 ^ (-x.exp10).toNat))

/-- The abstract operation `ToBoolean`. -/
def toBoolean : JSValue → Bool
  | undefined => false
  | null => false
  | bool b => b
  | num x => !isZero x
  | str s => s != ""
  | arr _ => true
  | obj _ => true

/-- The `typeof` operator. -/
def typeof : JSValue → String
  | undefined => "undefined"
  | null => "object"
  | bool _ => "boolean"
  | num _ => "number"
  | str _ => "string"
  | arr _ => "object"
  | obj _ => "object"

/-- The function `Array.isArray`. -/
def isArray : JSValue → Bool
  | arr _ => true
  | _ => false

/-- The own property `key` of a property list, `undefined` when absent. -/
def lookup (key : String) : List (String × JSValue) → JSValue
  | [] => undefined
  | (k, v) :: rest => if k = key then v else lookup key rest

/-- The property read `v.key`, for a `key` that no prototype defines and that
is neither `length` nor an index (the program reads `messages`, `role`,
`content`, `model`, `stream`, `notion_model`, `type` and `value` only): the own
property of an object, `undefined` on arrays and primitives, a `TypeError` on
`null` and `undefined`. -/
def getProp (v : JSValue) (key : String) : Except JSError JSValue :=
  match v with
  | undefined =>
    .error (.TypeError ("Cannot read properties of undefined (reading '" ++ key ++ "')"))
  | null =>
    .error (.TypeError ("Cannot read properties of null (reading '" ++ key ++ "')"))
  | obj fields => .ok (lookup key fields)
  | _ => .ok undefined

/-- Whether a property list has the own property `key`. -/
def hasKey (key : String) : List (String × JSValue) → Bool
  | [] => false
  | (k, _) :: rest => decide (k = key) || hasKey key rest

/-- The expression `key in v`, for a `key` as in `getProp`: own-property test on
objects, `false` on arrays, a `TypeError` on everything else. -/
def hasProperty (key : String) (v : JSValue) : Except JSError Bool :=
  match v with
  | obj fields => .ok (hasKey key fields)
  | arr _ => .ok false
  | _ =>
    .error (.TypeError ("Cannot use 'in' operator to search for '" ++ key ++ "'"))

/-- The assignment of an own property of a property list: an existing property
keeps its position, a new one is appended. -/
def assign (key : String) (x : JSValue) : List (String × JSValue) → List (String × JSValue)
  | [] => [(key, x)]
  | (k, v) :: rest => if k = key then (k, x) :: rest else (k, v) :: assign key x rest

/-- The assignment `v.key = x` on an object. The program assigns properties of
the validated request only, which is a plain object at that point; other values
are returned as they are. -/
def setProp (v : JSValue) (key : String) (x : JSValue) : JSValue :=
  match v with
  | obj fields => obj (assign key x fields)
  | other => other

/-- The expression `a || b`. -/
def or (a b : JSValue) : JSValue := if toBoolean a then a else b

end JSValue

/-! ## Strings -/

/-- `String.prototype.split('\n')` on a list of characters. -/
def splitChars : List Char → List (List Char)
  | [] => [[]]
  | c :: cs =>
    if c = '\n' then [] :: splitChars cs
    else
      match splitChars cs with
      | [] => [[c]]
      | l :: ls => (c :: l) :: ls

/-- The call `s.split('\n')`. -/
def split (s : String) : List String := (splitChars s.data).map String.mk

/-- The characters `String.prototype.trim` strips: ECMAScript `WhiteSpace` and
`LineTerminator`. -/
def isTrimChar (c : Char) : Bool :=
  let n := c.toNat
  (9 ≤ n && n ≤ 13) || n == 0x20 || n == 0xA0 || n == 0x1680 ||
    (0x2000 ≤ n && n ≤ 0x200A) || n == 0x2028 || n == 0x2029 || n == 0x202F ||
    n == 0x205F || n == 0x3000 || n == 0xFEFF

/-- The call `s.trim()`. -/
def trim (s : String) : String :=
  String.mk ((s.data.dropWhile isTrimChar).reverse.dropWhile isTrimChar).reverse

/-- The call `s.startsWith(p)`. -/
def startsWith (s p : String) : Bool := p.data.isPrefixOf s.data

/-- The number of UTF-16 code units of a character. -/
def utf16Size (c : Char) : Nat := if c.toNat < 0x10000 then 1 else 2

/-- The property `s.length`: the number of UTF-16 code units. -/
def jsLength (s : String) : Nat := (s.data.map utf16Size).sum

/-- The call `s.substring(n)`, for a string whose first `n` characters are in
the Basic Multilingual Plane (one code unit each). -/
def substring (s : String) (n : Nat) : String := String.mk (s.data.drop n)

/-- The UTF-8 encoding of a character. -/
def utf8Char (c : Char) : List Nat :=
  let n := c.toNat
  if n < 0x80 then [n]
  else if n < 0x800 then [0xC0 + n / 64, 0x80 + n % 64]
  else if n < 0x10000 then [0xE0 + n / 4096, 0x80 + n / 64 % 64, 0x80 + n % 64]
  else [0xF0 + n / 262144, 0x80 + n / 4096 % 64, 0x80 + n / 64 % 64, 0x80 + n % 64]

/-- The call `Buffer.from(s, 'utf8')`: the bytes of the UTF-8 encoding. -/
def bufferFrom (s : String) : List Nat := s.data.flatMap utf8Char

/-! ## Reference implementation of `JSON.parse` -/

namespace JSON

/-- JSON whitespace: space, tab, line feed, carriage return. -/
def isWs (c : Char) : Bool := c = ' ' || c = '\t' || c = '\n' || c = '\r'

/-- Drops leading JSON whitespace. -/
def skipWs : List Char → List Char
  | [] => []
  | c :: cs => if isWs c then skipWs cs else c :: cs

/-- Whether a character is a decimal digit. -/
def isDigit (c : Char) : Bool := 48 ≤ c.toNat && c.toNat ≤ 57

/-- The value of a hexadecimal digit. -/
def hexVal (c : Char) : Option Nat :=
  let n := c.toNat
  if 48 ≤ n ∧ n ≤ 57 then some (n - 48)
  else if 97 ≤ n ∧ n ≤ 102 then some (n - 87)
  else if 65 ≤ n ∧ n ≤ 70 then some (n - 55)
  else none

/-- The code unit written by the four hexadecimal digits of a `\u` escape. -/
def hex4 (a b c d : Char) : Option Nat :=
  match hexVal a, hexVal b, hexVal c, hexVal d with
  | some x, some y, some z, some w => some (((x * 16 + y) * 16 + z) * 16 + w)
  | _, _, _, _ => none

/-- The UTF-16 code units of a character. -/
def utf16Units (c : Char) : List Nat :=
  let n := c.toNat
  if n < 0x10000 then [n]
  else [0xD800 + (n - 0x10000) / 1024, 0xDC00 + (n - 0x10000) % 1024]

/-- The character of a single code unit; an unpaired surrogate, which `String`
cannot hold, is represented by U+FFFD. -/
def unitChar (u : Nat) : Char :=
  if 0xD800 ≤ u ∧ u < 0xE000 then Char.ofNat 0xFFFD else Char.ofNat u

/-- Reads a sequence of UTF-16 code units as characters, pairing surrogates. -/
def utf16Decode : List Nat → List Char
  | [] => []
  | [u] => [unitChar u]
  | u :: v :: rest =>
    if 0xD800 ≤ u ∧ u < 0xDC00 ∧ 0xDC00 ≤ v ∧ v < 0xE000 then
      Char.ofNat (0x10000 + (u - 0xD800) * 1024 + (v - 0xDC00)) :: utf16Decode rest
    else unitChar u :: utf16Decode (v :: rest)

/-- Reads a string literal after its opening quote; `acc` holds the code units
read so far, last first. -/
def parseString : List Char → List Nat → Option (String × List Char)
  | [], _ => none
  | c :: rest, acc =>
    if c = '"' then some (String.mk (utf16Decode acc.reverse), rest)
    else if c = '\\' then
      match rest with
      | 'u' :: a :: b :: x :: d :: r =>
        match hex4 a b x d with
        | some u => parseString r (u :: acc)
        | none => none
      | e :: r =>
        if e = '"' then parseString r (0x22 :: acc)
        else if e = '\\' then parseString r (0x5C :: acc)
        else if e = '/' then parseString r (0x2F :: acc)
        else if e = 'b' then parseString r (0x08 :: acc)
        else if e = 'f' then parseString r (0x0C :: acc)
        else if e = 'n' then parseString r (0x0A :: acc)
        else if e = 'r' then parseString r (0x0D :: acc)
        else if e = 't' then parseString r (0x09 :: acc)
        else none
      | [] => none
    else if c.toNat < 0x20 then none
    else parseString rest ((utf16Units c).reverse ++ acc)

/-- The number written by a sequence of decimal digits. -/
def digitsVal (ds : List Char) : Nat := ds.foldl (fun a c => 10 * a + (c.toNat - 48)) 0

/-- Reads the optional exponent part of a number literal. -/
def parseExponent (cs : List Char) : Option (Int × List Char) :=
  match cs with
  | e :: r =>
    if e = 'e' ∨ e = 'E' then
      let (neg, r1) :=
        match r with
        | s :: r0 => if s = '-' then (true, r0) else if s = '+' then (false, r0) else (false, r)
        | [] => (false, r)
      let ds := r1.span isDigit
      if ds.1 = [] then none
      else some (if neg then -(digitsVal ds.1 : Int) else (digitsVal ds.1 : Int), ds.2)
    else some (0, cs)
  | [] => some (0, cs)

/-- Reads a number literal `-? int frac? exp?`. -/
def parseNumber (cs : List Char) : Option (JSNumber × List Char) :=
  let (neg, cs1) :=
    match cs with
    | s :: r => if s = '-' then (true, r) else (false, cs)
    | [] => (false, cs)
  let ip := cs1.span isDigit
  if ip.1 = [] then none
  else if 1 < ip.1.length ∧ ip.1.head? = some '0' then none
  else
    let fp : Option (List Char × List Char) :=
      match ip.2 with
      | p :: r =>
        if p = '.' then
          let ds := r.span isDigit
          if ds.1 = [] then none else some ds
        else some ([], ip.2)
      | [] => some ([], ip.2)
    match fp with
    | none => none
    | some (fd, cs3) =>
      match parseExponent cs3 with
      | none => none
      | some (e, cs4) =>
        let m : Int := digitsVal (ip.1 ++ fd)
        some (⟨if neg then -m else m, e - fd.length⟩, cs4)

mutual
/-- Reads one JSON value, leading whitespace included; the first argument
bounds the number of nested calls. -/
def parseValue : Nat → List Char → Option (JSValue × List Char)
  | 0, _ => none
  | n + 1, cs =>
    match skipWs cs with
    | '{' :: r =>
      match skipWs r with
      | '}' :: r1 => some (.obj [], r1)
      | r1 => parseMembers n r1 []
    | '[' :: r =>
      match skipWs r with
      | ']' :: r1 => some (.arr [], r1)
      | r1 => parseElements n r1 []
    | '"' :: r =>
      match parseString r [] with
      | some (s, r1) => some (.str s, r1)
      | none => none
    | 't' :: 'r' :: 'u' :: 'e' :: r => some (.bool true, r)
    | 'f' :: 'a' :: 'l' :: 's' :: 'e' :: r => some (.bool false, r)
    | 'n' :: 'u' :: 'l' :: 'l' :: r => some (.null, r)
    | cs1 =>
      match parseNumber cs1 with
      | some (x, r) => some (.num x, r)
      | none => none
/-- Reads the elements of an array up to the closing bracket; `acc` holds the
elements read so far, last first. -/
def parseElements : Nat → List Char → List JSValue → Option (JSValue × List Char)
  | 0, _, _ => none
  | n + 1, cs, acc =>
    match parseValue n cs with
    | none => none
    | some (v, r) =>
      match skipWs r with
      | ',' :: r1 => parseElements n r1 (v :: acc)
      | ']' :: r1 => some (.arr (v :: acc).reverse, r1)
      | _ => none
/-- Reads the members of an object up to the closing brace; a repeated key
overwrites the earlier value. -/
def parseMembers : Nat → List Char → List (String × JSValue) → Option (JSValue × List Char)
  | 0, _, _ => none
  | n + 1, cs, acc =>
    match skipWs cs with
    | '"' :: r =>
      match parseString r [] with
      | none => none
      | some (k, r1) =>
        match skipWs r1 with
        | ':' :: r2 =>
          match parseValue n r2 with
          | none => none
          | some (v, r3) =>
            match skipWs r3 with
            | ',' :: r4 => parseMembers n r4 (JSValue.assign k v acc)
            | '}' :: r4 => some (.obj (JSValue.assign k v acc), r4)
            | _ => none
        | _ => none
    | _ => none
end

/-- The call `JSON.parse(text)`; `none` stands for the `SyntaxError` it throws
on text that is not JSON. -/
def parse (text : String) : Option JSValue :=
  match parseValue (2 * text.data.length + 2) text.data with
  | some (v, rest) => if skipWs rest = [] then some v else none
  | none => none

/-- The hexadecimal digit of a number below sixteen. -/
def hexDigit (n : Nat) : Char :=
  if n < 10 then Char.ofNat (48 + n) else Char.ofNat (87 + n)

/-- The text `JSON.stringify` writes for one character of a string. -/
def escapeChar (c : Char) : List Char :=
  if c = '"' then ['\\', '"']
  else if c = '\\' then ['\\', '\\']
  else if c.toNat = 8 then ['\\', 'b']
  else if c.toNat = 9 then ['\\', 't']
  else if c.toNat = 10 then ['\\', 'n']
  else if c.toNat = 12 then ['\\', 'f']
  else if c.toNat = 13 then ['\\', 'r']
  else if c.toNat < 0x20 then
    ['\\', 'u', '0', '0', hexDigit (c.toNat / 16), hexDigit (c.toNat % 16)]
  else [c]

/-- The quoted form of a string. -/
def quote (s : String) : String :=
  String.mk ('"' :: s.data.flatMap escapeChar ++ ['"'])

/-- The text of a number: the decimal digits of an integer literal, the
literal in exponent form otherwise. -/
def numberText (x : JSNumber) : String :=
  if x.exp10 = 0 then toString x.mantissa
  else toString x.mantissa ++ "e" ++ toString x.exp10

mutual
/-- The text of a value inside an array or object; `undefined` has none. -/
def stringifyValue : JSValue → Option String
  | .undefined => none
  | .null => some "null"
  | .bool b => some (if b then "true" else "false")
  | .num x => some (numberText x)
  | .str s => some (quote s)
  | .arr items => some ("[" ++ ",".intercalate (stringifyItems items) ++ "]")
  | .obj fields => some ("\x7b" ++ ",".intercalate (stringifyFields fields) ++ "\x7d")
/-- The texts of the items of an array; `undefined` is written `null`. -/
def stringifyItems : List JSValue → List String
  | [] => []
  | v :: rest => (stringifyValue v).getD "null" :: stringifyItems rest
/-- The texts of the properties of an object; a property whose value is
`undefined` is left out. -/
def stringifyFields : List (String × JSValue) → List String
  | [] => []
  | (k, v) :: rest =>
    match stringifyValue v with
    | some text => (quote k ++ ":" ++ text) :: stringifyFields rest
    | none => stringifyFields rest
end

/-- The text of `JSON.stringify(v)` inside a template literal. -/
def stringify (v : JSValue) : String := (stringifyValue v).getD "undefined"

end JSON

/-! ## Host, configuration and effects -/

/-- The host functions whose results the program does not determine. -/
structure Host where
  /-- The function `JSON.parse`; `none` stands for the `SyntaxError` it throws. -/
  parse : String → Option JSValue
  /-- The function `JSON.stringify`. -/
  stringify : JSValue → String
  /-- The result of the `k`-th call of `uuidv4()`. -/
  uuidv4 : Nat → String
  /-- The result of the `k`-th call of `Date.now()`. -/
  now : Nat → Nat

/-- How many times `uuidv4()` and `Date.now()` have been called. -/
structure Ticks where
  uuid : Nat
  clock : Nat
  deriving DecidableEq, Repr

/-- The module constants read from the environment (index.js lines 32-34). -/
structure Config where
  NOTION_COOKIE : String
  NOTION_SPACE_ID : String
  EXPECTED_TOKEN : String

/-- The URL of the upstream endpoint (index.js line 31). -/
def NOTION_API_URL : String := "https://www.notion.so/api/v3/runInferenceTranscript"

/-- A call on the Express response of the request, or on `axios`. -/
inductive Effect where
  | setHeader (name value : String)
  | status (code : Nat)
  | json (body : JSValue)
  | write (data : String)
  | end_
  | post (url : String) (body : JSValue)
  deriving Repr

/-- A call of `uuidv4()`. -/
def uuidv4 (h : Host) (t : Ticks) : String × Ticks :=
  (h.uuidv4 t.uuid, { t with uuid := t.uuid + 1 })

/-- A call of `Date.now()`. -/
def dateNow (h : Host) (t : Ticks) : Nat × Ticks :=
  (h.now t.clock, { t with clock := t.clock + 1 })

/-- The value of a parameter declared with a default: the default replaces
`undefined`. -/
def defaultArg (x d : JSValue) : JSValue :=
  match x with
  | .undefined => d
  | other => other

/-- The test `v === s` against a string. -/
def strictEqStr (v : JSValue) (s : String) : Bool :=
  match v with
  | .str t => t == s
  | _ => false

/-- The call `xs.includes(v)` on an array of strings. -/
def includes (xs : List String) (v : JSValue) : Bool :=
  match v with
  | .str s => xs.contains s
  | _ => false

/-- The object `{error: {message, type}}` of the error responses. -/
def errorBody (message type : String) : JSValue :=
  .obj [("error", .obj [("message", .str message), ("type", .str type)])]

/-! ## models.js -/

/-- Function `getCurrentTimestamp` (models.js lines 10-12). -/
def getCurrentTimestamp (h : Host) (t : Ticks) : Nat × Ticks :=
  let r := dateNow h t
  (r.1 / 1000, r.2)

/-- Function `validateChatMessage` (models.js lines 15-29). -/
def validateChatMessage (message : JSValue) : Except JSError JSValue :=
  if !message.toBoolean || message.typeof != "object" then
    .error (.Error "消息必须是一个对象")
  else
    match message.getProp "role" with
    | .error e => .error e
    | .ok role =>
      if !includes ["system", "user", "assistant"] role then
        .error (.Error "消息角色必须是 system、user 或 assistant")
      else
        match message.getProp "content" with
        | .error e => .error e
        | .ok content =>
          if content.typeof != "string" then .error (.Error "消息内容必须是字符串")
          else .ok message

/-- The call `xs.forEach(f)`: `f` on every element in order, up to the first
exception. -/
def forEach (f : JSValue → Except JSError JSValue) : List JSValue → Except JSError Unit
  | [] => .ok ()
  | x :: xs =>
    match f x with
    | .error e => .error e
    | .ok _ => forEach f xs

/-- Function `validateChatCompletionRequest` (models.js lines 31-48). -/
def validateChatCompletionRequest (request : JSValue) : Except JSError JSValue :=
  if !request.toBoolean || request.typeof != "object" then
    .error (.Error "请求必须是一个对象")
  else
    match request.getProp "messages" with
    | .error e => .error e
    | .ok (.arr messages) =>
      if messages.length = 0 then .error (.Error "messages必须是非空数组")
      else
        match forEach validateChatMessage messages with
        | .error e => .error e
        | .ok _ => do
          let model ← request.getProp "model"
          let request1 := request.setProp "model" (model.or (.str "notion-proxy"))
          let stream ← request1.getProp "stream"
          let request2 := request1.setProp "stream"
            (match stream with
             | .undefined => .bool false
             | other => .bool other.toBoolean)
          let notionModel ← request2.getProp "notion_model"
          let request3 := request2.setProp "notion_model"
            (notionModel.or (.str "anthropic-opus-4"))
          pure request3
    | .ok _ => .error (.Error "messages必须是非空数组")

/-- Function `createNotionTranscriptConfigValue` (models.js lines 51-56). -/
def createNotionTranscriptConfigValue (model : JSValue) : JSValue :=
  .obj [("type", .str "markdown-chat"), ("model", model)]

/-- Function `createNotionTranscriptItem` (models.js lines 58-64). -/
def createNotionTranscriptItem (type : String) (value : JSValue) : Except JSError JSValue :=
  if !(["config", "user", "markdown-chat"].contains type) then
    .error (.Error "转录项类型必须是config、user或markdown-chat")
  else .ok (.obj [("type", .str type), ("value", value)])

/-- Function `createNotionDebugOverrides` (models.js lines 66-72). -/
def createNotionDebugOverrides : JSValue :=
  .obj [("cachedInferences", .obj []), ("annotationInferences", .obj []),
    ("emitInferences", .bool false)]

/-- Function `createNotionRequestBody` (models.js lines 74-84). -/
def createNotionRequestBody (h : Host) (t : Ticks) (spaceId : String)
    (transcript : List JSValue) : JSValue × Ticks :=
  let u := uuidv4 h t
  (.obj [("traceId", .str u.1), ("spaceId", .str spaceId), ("transcript", .arr transcript),
      ("createThread", .bool true), ("debugOverrides", createNotionDebugOverrides),
      ("generateTitle", .bool false), ("saveAllThreadOperations", .bool true)], u.2)

/-- Function `createChoiceDelta` (models.js lines 87-89). -/
def createChoiceDelta (content : JSValue) : JSValue :=
  .obj [("content", defaultArg content .null)]

/-- Function `createChoice` (models.js lines 91-97). -/
def createChoice (delta finishReason : JSValue) : JSValue :=
  .obj [("index", .ofNat 0), ("delta", delta), ("finish_reason", defaultArg finishReason .null)]

/-- Function `createChatCompletionChunk` (models.js lines 99-107). -/
def createChatCompletionChunk (h : Host) (t : Ticks) (choices model : JSValue) :
    JSValue × Ticks :=
  let u := uuidv4 h t
  let c := getCurrentTimestamp h u.2
  (.obj [("id", .str ("chatcmpl-" ++ u.1)), ("object", .str "chat.completion.chunk"),
      ("created", .ofNat c.1), ("model", defaultArg model (.str "notion-proxy")),
      ("choices", choices)], c.2)

/-! ## index.js -/

/-- The outcome of an Express middleware call. -/
inductive Middleware where
  | next
  | responded (effects : List Effect)
  deriving Repr

/-- The function `crypto.timingSafeEqual` on two byte sequences: a `RangeError`
when their lengths differ, otherwise whether they are equal. -/
def timingSafeEqual (a b : List Nat) : Except JSError Bool :=
  if a.length ≠ b.length then
    .error (.RangeError "Input buffers must have the same byte length")
  else .ok (a == b)

/-- Function `authenticate` (index.js lines 99-128); `authorization` is
`req.headers.authorization`, `none` when the header is absent. -/
def authenticate (cfg : Config) (authorization : Option String) :
    Except JSError Middleware :=
  match authorization with
  | none =>
    .ok (.responded [.status 401, .json (errorBody "缺少身份验证凭据" "unauthorized")])
  | some authHeader =>
    if authHeader == "" || !startsWith authHeader "Bearer " then
      .ok (.responded [.status 401, .json (errorBody "缺少身份验证凭据" "unauthorized")])
    else
      let token := substring authHeader 7
      match timingSafeEqual (bufferFrom token) (bufferFrom cfg.EXPECTED_TOKEN) with
      | .error e => .error e
      | .ok isValidToken =>
        if !isValidToken then
          .ok (.responded [.status 401, .json (errorBody "无效的身份验证凭据" "unauthorized")])
        else .ok .next

/-- The values a `for ... of` loop visits: the items of an array, the
characters of a string, a `TypeError` on anything else. -/
def iterate (v : JSValue) : Except JSError (List JSValue) :=
  match v with
  | .arr items => .ok items
  | .str s => .ok (s.data.map fun c => .str (String.singleton c))
  | _ => .error (.TypeError "requestData.messages is not iterable")

/-- The loop of `buildNotionRequest` (index.js lines 140-148): one `push` per
message. -/
def pushMessages : List JSValue → List JSValue → Except JSError (List JSValue)
  | transcript, [] => .ok transcript
  | transcript, message :: rest =>
    match message.getProp "role" with
    | .error e => .error e
    | .ok role =>
      if strictEqStr role "assistant" then
        match message.getProp "content" with
        | .error e => .error e
        | .ok content =>
          match createNotionTranscriptItem "markdown-chat" content with
          | .error e => .error e
          | .ok item => pushMessages (transcript ++ [item]) rest
      else
        match message.getProp "content" with
        | .error e => .error e
        | .ok content =>
          match createNotionTranscriptItem "user" (.arr [.arr [content]]) with
          | .error e => .error e
          | .ok item => pushMessages (transcript ++ [item]) rest

/-- Function `buildNotionRequest` (index.js lines 131-152). -/
def buildNotionRequest (h : Host) (cfg : Config) (t : Ticks) (requestData : JSValue) :
    Except JSError (JSValue × Ticks) :=
  match requestData.getProp "notion_model" with
  | .error e => .error e
  | .ok notionModel =>
    match createNotionTranscriptItem "config" (createNotionTranscriptConfigValue notionModel) with
    | .error e => .error e
    | .ok config =>
      match requestData.getProp "messages" with
      | .error e => .error e
      | .ok messages =>
        match iterate messages with
        | .error e => .error e
        | .ok items =>
          match pushMessages [config] items with
          | .error e => .error e
          | .ok transcript => .ok (createNotionRequestBody h t cfg.NOTION_SPACE_ID transcript)

/-- The two calls of `streamNotionResponse`: with the Express response and
`isStreamingMode = true` (line 336), and with `mockRes`, which closes over
`requestData`, and `isStreamingMode = false` (line 384). -/
inductive Mode where
  | streaming
  | buffered (requestData : JSValue)

/-- The parameter `isStreamingMode`. -/
def Mode.isStreamingMode : Mode → Bool
  | .streaming => true
  | .buffered _ => false

/-- The variables of one run of `streamNotionResponse`: its three locals
(lines 206-208), the oracle counters, the calls made so far on the Express
response and on `axios`, and, as instrumentation, the values of `contentChunk`
for which the block of lines 224-234 has run. -/
structure StreamState where
  chunkCount : Nat
  totalChars : Nat
  fullResponseContent : String
  ticks : Ticks
  effects : List Effect
  fragments : List String

/-- How a statement completes. -/
inductive Completion where
  | normal
  | break_
  | throw (e : JSError)

/-- The text of a server-sent event carrying `payload`. -/
def sse (payload : String) : String := "data: " ++ payload ++ "\n\n"

/-- The block run for a non-empty `contentChunk` (index.js lines 224-234). -/
def emitContent (h : Host) (mode : Mode) (st : StreamState) (contentChunk : String) :
    StreamState :=
  let chunk := createChatCompletionChunk h st.ticks
    (.arr [createChoice (createChoiceDelta (.str contentChunk)) .undefined]) .undefined
  { chunkCount := st.chunkCount + 1
    totalChars := st.totalChars + jsLength contentChunk
    fullResponseContent := st.fullResponseContent ++ contentChunk
    ticks := chunk.2
    effects :=
      if mode.isStreamingMode then st.effects ++ [.write (sse (h.stringify chunk.1))]
      else st.effects
    fragments := st.fragments ++ [contentChunk] }

/-- The body of the `try` block for one line (index.js lines 217-241), with the
state it leaves behind. In the test of line 220 `data.value` is read only when
`data.type === 'markdown-chat'` holds; when it does not, the test fails, as it
does on a value that is not a string. -/
def tryBody (h : Host) (mode : Mode) (st : StreamState) (line : String) :
    StreamState × Completion :=
  match h.parse line with
  | none => (st, .throw (.SyntaxError "Unexpected token in JSON"))
  | some data =>
    match data.getProp "type" with
    | .error e => (st, .throw e)
    | .ok type =>
      match (if strictEqStr type "markdown-chat" then data.getProp "value" else .ok .undefined) with
      | .error e => (st, .throw e)
      | .ok value =>
        let st1 :=
          match value with
          | .str contentChunk =>
            if contentChunk != "" then emitContent h mode st contentChunk else st
          | _ => st
        match JSValue.hasProperty "recordMap" data with
        | .error e => (st1, .throw e)
        | .ok true => (st1, .break_)
        | .ok false => (st1, .normal)

/-- The loop `for (const line of lines)` (index.js lines 213-245): blank lines
are skipped, an exception of the `try` block is caught and ignored, `break`
leaves the loop. -/
def forLines (h : Host) (mode : Mode) : StreamState → List String → StreamState
  | st, [] => st
  | st, line :: rest =>
    if trim line == "" then forLines h mode st rest
    else
      match tryBody h mode st line with
      | (st1, .break_) => st1
      | (st1, .normal) => forLines h mode st1 rest
      | (st1, .throw _) => forLines h mode st1 rest

/-- The `'data'` handler (index.js lines 210-246); `chunk` is the text
`chunk.toString()`. -/
def onData (h : Host) (mode : Mode) (st : StreamState) (chunk : String) : StreamState :=
  forLines h mode st (split chunk)

/-- The property read `v.key` on a value known to be neither `null` nor
`undefined`. -/
def JSValue.prop (v : JSValue) (key : String) : JSValue :=
  match v with
  | .obj fields => JSValue.lookup key fields
  | _ => .undefined

/-- The callback `mockRes.sendFullContent` (index.js lines 353-380). -/
def sendFullContent (h : Host) (requestData : JSValue) (st : StreamState)
    (fullContent : String) : StreamState :=
  let u := uuidv4 h st.ticks
  let c := getCurrentTimestamp h u.2
  let responseJson : JSValue :=
    .obj [("id", .str ("chatcmpl-" ++ u.1)), ("object", .str "chat.completion"),
      ("created", .ofNat c.1), ("model", requestData.prop "model"),
      ("choices", .arr [.obj [("index", .ofNat 0),
        ("message", .obj [("role", .str "assistant"), ("content", .str fullContent)]),
        ("finish_reason", .str "stop")]]),
      ("usage", .obj [("prompt_tokens", .null), ("completion_tokens", .null),
        ("total_tokens", .null)])]
  let d := dateNow h c.2
  { st with ticks := d.2, effects := st.effects ++ [.json responseJson] }

/-- The `'end'` handler (index.js lines 248-270). -/
def onEnd (h : Host) (mode : Mode) (st : StreamState) : StreamState :=
  let d := dateNow h st.ticks
  match mode with
  | .streaming =>
    let finalChunk := createChatCompletionChunk h d.2
      (.arr [createChoice (createChoiceDelta .undefined) (.str "stop")]) .undefined
    { st with
      ticks := finalChunk.2
      effects := st.effects ++
        [.write (sse (h.stringify finalChunk.1)), .write "data: [DONE]\n\n", .end_] }
  | .buffered requestData =>
    sendFullContent h requestData { st with ticks := d.2 } st.fullResponseContent

/-- The `'error'` handler (index.js lines 272-280). -/
def onError (st : StreamState) (message : String) : StreamState :=
  { st with
    effects := st.effects ++
      [.status 500, .json (errorBody ("处理Notion API响应时出错: " ++ message) "server_error")] }

/-- How the upstream body stream finishes: an `'end'` or an `'error'` event. -/
inductive StreamEnd where
  | end_
  | error (message : String)

/-- What `axios.post` does: it rejects, with the status of `error.response`
when there is one, or it resolves with a body stream that delivers `chunks` and
then finishes. -/
inductive Upstream where
  | rejected (status : Option Nat) (message : String)
  | stream (chunks : List String) (fin : StreamEnd)

/-- The state when the body stream is attached (index.js lines 206-208). -/
def startState (t : Ticks) (effects : List Effect) : StreamState :=
  { chunkCount := 0, totalChars := 0, fullResponseContent := "", ticks := t
    effects := effects, fragments := [] }

/-- The `'data'` events of a body stream, in order. -/
def onChunks (h : Host) (mode : Mode) (st : StreamState) (chunks : List String) :
    StreamState :=
  chunks.foldl (onData h mode) st

/-- The first part of `streamNotionResponse` (index.js lines 155-208): the
response headers in streaming mode, the identifiers and time stamps, the call
of `axios.post`, the initial values of the locals. -/
def openStream (h : Host) (mode : Mode) (t : Ticks) (notionRequestBody : JSValue) :
    StreamState :=
  let headers : List Effect :=
    if mode.isStreamingMode then
      [.setHeader "Content-Type" "text/event-stream", .setHeader "Cache-Control" "no-cache",
        .setHeader "Connection" "keep-alive"]
    else []
  let streamId := uuidv4 h t
  let chunkId := uuidv4 h streamId.2
  let createdTime := getCurrentTimestamp h chunkId.2
  let startTime := dateNow h createdTime.2
  startState startTime.2 (headers ++ [.post NOTION_API_URL notionRequestBody])

/-- Function `streamNotionResponse` (index.js lines 154-301), run to the end of
the upstream interaction. -/
def streamNotionResponse (h : Host) (mode : Mode) (t : Ticks) (up : Upstream)
    (notionRequestBody : JSValue) : StreamState :=
  let st := openStream h mode t notionRequestBody
  match up with
  | .rejected (some status) message =>
    { st with
      effects := st.effects ++
        [.status status, .json (errorBody ("Notion API错误: " ++ message) "api_error")] }
  | .rejected none message =>
    { st with
      effects := st.effects ++
        [.status 500, .json (errorBody ("连接到Notion API时出错: " ++ message) "connection_error")] }
  | .stream chunks .end_ => onEnd h mode (onChunks h mode st chunks)
  | .stream chunks (.error message) => onError (onChunks h mode st chunks) message

/-- The handler of `POST /v1/chat/completions` (index.js lines 319-395), after
`authenticate` has called `next`: the calls it makes on the response and on
`axios`, in order. -/
def chatCompletions (h : Host) (cfg : Config) (t : Ticks) (up : Upstream)
    (body : JSValue) : List Effect :=
  if cfg.NOTION_COOKIE == "" then
    [.status 500, .json (errorBody "服务器配置错误: Notion cookie未设置" "server_error")]
  else
    match validateChatCompletionRequest body with
    | .error e =>
      [.status 400, .json (errorBody ("请求处理错误: " ++ e.message) "invalid_request_error")]
    | .ok requestData =>
      match buildNotionRequest h cfg t requestData with
      | .error e =>
        [.status 400, .json (errorBody ("请求处理错误: " ++ e.message) "invalid_request_error")]
      | .ok (notionRequestBody, t1) =>
        match requestData.getProp "stream" with
        | .error e =>
          [.status 400, .json (errorBody ("请求处理错误: " ++ e.message) "invalid_request_error")]
        | .ok stream =>
          if stream.toBoolean then
            (streamNotionResponse h .streaming t1 up notionRequestBody).effects
          else
            let startTime := dateNow h t1
            (streamNotionResponse h (.buffered requestData) startTime.2 up
              notionRequestBody).effects

/-! ## Predicates and observations used by the statements -/

/-- A host for evaluating the program: the reference `JSON.parse` and
`JSON.stringify`, numbered identifiers, a clock that advances one millisecond
per reading. -/
def refHost : Host where
  parse := JSON.parse
  stringify := JSON.stringify
  uuidv4 := fun k => "00000000-0000-4000-8000-" ++ toString (100000000000 + k)
  now := fun k => 1700000000000 + k

/-- Whether a line decodes to a record that has the `recordMap` field. -/
def recordMapLine (h : Host) (line : String) : Bool :=
  match h.parse line with
  | some (.obj fields) => JSValue.hasKey "recordMap" fields
  | _ => false

/-- The content fragment a line carries: the `value` of a record whose `type`
is `markdown-chat` and whose `value` is a non-empty string. -/
def lineContent (h : Host) (line : String) : Option String :=
  match h.parse line with
  | some (.obj fields) =>
    if strictEqStr (JSValue.lookup "type" fields) "markdown-chat" then
      match JSValue.lookup "value" fields with
      | .str s => if s != "" then some s else none
      | _ => none
    else none
  | _ => none

/-- The state after the `try` block has run on a line. -/
def stepLine (h : Host) (mode : Mode) (st : StreamState) (line : String) : StreamState :=
  match lineContent h line with
  | some c => emitContent h mode st c
  | none => st

/-- Whether a line is non-blank and not valid JSON. -/
def malformed (h : Host) (line : String) : Bool :=
  trim line != "" && (h.parse line).isNone

/-- The call `lines.join('\n')`. -/
def joinLines (lines : List String) : String :=
  String.mk (List.intercalate ['\n'] (lines.map String.data))

/-- A chunk without its malformed lines. -/
def removeMalformed (h : Host) (chunk : String) : String :=
  joinLines ((split chunk).filter fun line => !malformed h line)

/-- Whether a chunk ends with a newline. -/
def endsWithNewline (chunk : String) : Bool := chunk.data.getLast? == some '\n'

/-- Whether a value is a chat message: an object whose `role` is `system`,
`user` or `assistant` and whose `content` is a string. -/
def isChatMessage (m : JSValue) : Bool :=
  match m with
  | .obj fields =>
    includes ["system", "user", "assistant"] (JSValue.lookup "role" fields) &&
      (JSValue.lookup "content" fields).typeof == "string"
  | _ => false

/-- Whether a request body is an object whose `messages` is a non-empty array
of chat messages. -/
def isChatRequest (body : JSValue) : Bool :=
  match body with
  | .obj fields =>
    match JSValue.lookup "messages" fields with
    | .arr messages => !messages.isEmpty && messages.all isChatMessage
    | _ => false
  | _ => false

/-- Whether the `role` of a message is none of `system`, `user`, `assistant`. -/
def unrecognisedRole (m : JSValue) : Bool :=
  !includes ["system", "user", "assistant"] (m.prop "role")

/-- The transcript item of one message. -/
def transcriptItem (message : JSValue) : JSValue :=
  if strictEqStr (message.prop "role") "assistant" then
    .obj [("type", .str "markdown-chat"), ("value", message.prop "content")]
  else
    .obj [("type", .str "user"), ("value", .arr [.arr [message.prop "content"]])]

/-- The data of the `res.write` calls of an effect log, in order. -/
def writes : List Effect → List String
  | [] => []
  | .write data :: rest => data :: writes rest
  | _ :: rest => writes rest

/-- The calls of an effect log that reach the client: all but `axios.post`. -/
def clientCalls : List Effect → List Effect
  | [] => []
  | .post _ _ :: rest => clientCalls rest
  | e :: rest => e :: clientCalls rest

/-- A chunk that carries the content fragment `f`. -/
def isContentChunk (chunk : JSValue) (f : String) : Prop :=
  chunk.prop "object" = .str "chat.completion.chunk" ∧
    chunk.prop "choices" =
      .arr [.obj [("index", .ofNat 0), ("delta", .obj [("content", .str f)]),
        ("finish_reason", .null)]]

/-- The final chunk of a stream: no content, `finish_reason` `stop`. -/
def isStopChunk (chunk : JSValue) : Prop :=
  chunk.prop "object" = .str "chat.completion.chunk" ∧
    chunk.prop "choices" =
      .arr [.obj [("index", .ofNat 0), ("delta", .obj [("content", .null)]),
        ("finish_reason", .str "stop")]]

/-- The `res.write` call that sends the chunk `c` as a server-sent event. -/
def writeChunk (h : Host) (c : JSValue) : Effect := .write (sse (h.stringify c))

/-- What the `'data'` events between two states of a run have done: `fs` are
the fragments yielded, in order; their texts were appended to
`fullResponseContent`; in streaming mode one chunk per fragment was written, in
non-streaming mode no call was made. -/
def Yields (h : Host) (mode : Mode) (st st1 : StreamState) (fs : List String) : Prop :=
  st1.fragments = st.fragments ++ fs ∧
    st1.fullResponseContent = st.fullResponseContent ++ String.join fs ∧
    ∃ events : List JSValue,
      List.Forall₂ isContentChunk events fs ∧
        st1.effects =
          if mode.isStreamingMode then st.effects ++ events.map (writeChunk h) else st.effects

/-! ## Lemmas

### Splitting into lines -/

theorem splitChars_ne_nil (s : List Char) : splitChars s ≠ [] := by
  cases s with
  | nil => simp [splitChars]
  | cons c cs =>
    unfold splitChars
    split
    · simp
    · split <;> simp

theorem splitChars_cons_ne (c : Char) (cs : List Char) (hc : c ≠ '\n') :
    splitChars (c :: cs) = (c :: (splitChars cs).headD []) :: (splitChars cs).tail := by
  rw [splitChars, if_neg hc]
  cases hs : splitChars cs with
  | nil => exact absurd hs (splitChars_ne_nil cs)
  | cons l ls => rfl

theorem splitChars_append_newline (a b : List Char) :
    splitChars (a ++ '\n' :: b) = splitChars a ++ splitChars b := by
  induction a with
  | nil => simp [splitChars]
  | cons c cs ih =>
    by_cases hc : c = '\n'
    · simp [splitChars, hc, ih]
    · rw [List.cons_append, splitChars_cons_ne _ _ hc, splitChars_cons_ne _ _ hc, ih]
      cases hs : splitChars cs with
      | nil => exact absurd hs (splitChars_ne_nil cs)
      | cons l ls => simp

theorem not_mem_of_mem_splitChars (s l : List Char) (hl : l ∈ splitChars s) : '\n' ∉ l := by
  induction s generalizing l with
  | nil => simp [splitChars] at hl; simp [hl]
  | cons c cs ih =>
    by_cases hc : c = '\n'
    · simp [splitChars, hc] at hl
      rcases hl with rfl | hl
      · simp
      · exact ih l hl
    · rw [splitChars_cons_ne _ _ hc] at hl
      cases hs : splitChars cs with
      | nil => exact absurd hs (splitChars_ne_nil cs)
      | cons l0 ls =>
        rw [hs] at hl ih
        simp at hl
        rcases hl with rfl | hl
        · have := ih l0 (by simp)
          simp [this, Ne.symm hc]
        · exact ih l (by simp [hl])

theorem splitChars_of_not_mem (l : List Char) (hl : '\n' ∉ l) : splitChars l = [l] := by
  induction l with
  | nil => simp [splitChars]
  | cons c cs ih =>
    simp at hl
    have hc : c ≠ '\n' := fun h => hl.1 h.symm
    simp [splitChars, hc, ih hl.2]

theorem splitChars_intercalate (ls : List (List Char)) (hne : ls ≠ [])
    (hl : ∀ l ∈ ls, '\n' ∉ l) : splitChars (List.intercalate ['\n'] ls) = ls := by
  induction ls with
  | nil => exact absurd rfl hne
  | cons l rest ih =>
    cases rest with
    | nil =>
      simp [List.intercalate]
      exact splitChars_of_not_mem l (hl l (by simp))
    | cons l2 rest2 =>
      have h1 : List.intercalate ['\n'] (l :: l2 :: rest2)
          = l ++ '\n' :: List.intercalate ['\n'] (l2 :: rest2) := by
        simp [List.intercalate, List.intersperse]
      rw [h1, splitChars_append_newline, splitChars_of_not_mem l (hl l (by simp)),
        ih (by simp) (fun x hx => hl x (by simp [hx]))]
      simp

theorem tryBody_fst (h : Host) (mode : Mode) (st : StreamState) (line : String) :
    (tryBody h mode st line).1 = stepLine h mode st line := by
  unfold tryBody stepLine lineContent
  cases hp : h.parse line with
  | none => rfl
  | some data =>
    cases data with
    | obj fields =>
      simp only [JSValue.getProp, JSValue.hasProperty]
      by_cases ht : strictEqStr (JSValue.lookup "type" fields) "markdown-chat" = true
      · simp only [ht, if_true]
        cases hv : JSValue.lookup "value" fields with
        | str s =>
          by_cases hs : (s != "") = true
          · simp only [hs, if_true]; cases JSValue.hasKey "recordMap" fields <;> rfl
          · simp only [hs]; cases JSValue.hasKey "recordMap" fields <;> rfl
        | _ => cases JSValue.hasKey "recordMap" fields <;> rfl
      · simp only [ht]; cases JSValue.hasKey "recordMap" fields <;> rfl
    | _ => simp [JSValue.getProp, JSValue.hasProperty, strictEqStr]

theorem tryBody_break_iff (h : Host) (mode : Mode) (st : StreamState) (line : String) :
    (tryBody h mode st line).2 = .break_ ↔ recordMapLine h line = true := by
  unfold tryBody recordMapLine
  cases hp : h.parse line with
  | none => simp
  | some data =>
    cases data with
    | obj fields =>
      simp only [JSValue.getProp, JSValue.hasProperty]
      by_cases ht : strictEqStr (JSValue.lookup "type" fields) "markdown-chat" = true
      · simp only [ht, if_true]
        cases JSValue.hasKey "recordMap" fields <;> simp
      · simp only [ht]
        cases JSValue.hasKey "recordMap" fields <;> simp
    | _ => simp [JSValue.getProp, JSValue.hasProperty, strictEqStr]

theorem forLines_cons (h : Host) (mode : Mode) (st : StreamState) (line : String)
    (rest : List String) :
    forLines h mode st (line :: rest) =
      if trim line == "" then forLines h mode st rest
      else if recordMapLine h line then stepLine h mode st line
      else forLines h mode (stepLine h mode st line) rest := by
  rw [forLines]
  by_cases hb : (trim line == "") = true
  · simp only [hb, if_true]
  · simp only [hb]
    have h1 := tryBody_fst h mode st line
    have h2 := tryBody_break_iff h mode st line
    rcases hres : tryBody h mode st line with ⟨st1, c⟩
    rw [hres] at h1 h2
    simp only at h1 h2
    cases c with
    | break_ => simp [h2.mp rfl, h1]
    | normal =>
      have : recordMapLine h line = false := by
        cases hr : recordMapLine h line with
        | false => rfl
        | true => exact absurd (h2.mpr hr) (by simp)
      simp [this, h1]
    | throw e =>
      have : recordMapLine h line = false := by
        cases hr : recordMapLine h line with
        | false => rfl
        | true => exact absurd (h2.mpr hr) (by simp)
      simp [this, h1]

theorem forLines_append (h : Host) (mode : Mode) (xs ys : List String)
    (hx : ∀ l ∈ xs, recordMapLine h l = false) (st : StreamState) :
    forLines h mode st (xs ++ ys) = forLines h mode (forLines h mode st xs) ys := by
  induction xs generalizing st with
  | nil => rfl
  | cons x xs ih =>
    have hx1 : recordMapLine h x = false := hx x (by simp)
    have hx2 : ∀ l ∈ xs, recordMapLine h l = false := fun l hl => hx l (by simp [hl])
    rw [List.cons_append, forLines_cons, forLines_cons]
    by_cases hb : (trim x == "") = true
    · simp only [hb, if_true]; exact ih hx2 st
    · simp only [hb, hx1]; exact ih hx2 _

theorem forLines_blank (h : Host) (mode : Mode) (st : StreamState) (line : String)
    (hb : trim line = "") : forLines h mode st [line] = st := by
  rw [forLines_cons]; simp [hb, forLines]

theorem forLines_filter (h : Host) (mode : Mode) (xs : List String) (st : StreamState) :
    forLines h mode st (xs.filter fun line => !malformed h line) = forLines h mode st xs := by
  induction xs generalizing st with
  | nil => rfl
  | cons x xs ih =>
    by_cases hm : malformed h x = true
    · have hf : (x :: xs).filter (fun line => !malformed h line)
          = xs.filter (fun line => !malformed h line) := by simp [List.filter, hm]
      rw [hf, ih, forLines_cons]
      simp only [malformed, Bool.and_eq_true, bne_iff_ne, ne_eq] at hm
      obtain ⟨hnb, hp⟩ := hm
      have hp2 : h.parse x = none := by simpa using hp
      have h1 : recordMapLine h x = false := by simp [recordMapLine, hp2]
      have h2 : stepLine h mode st x = st := by simp [stepLine, lineContent, hp2]
      simp [hnb, h1, h2]
    · have hf : (x :: xs).filter (fun line => !malformed h line)
          = x :: xs.filter (fun line => !malformed h line) := by simp [List.filter, hm]
      rw [hf, forLines_cons, forLines_cons, ih, ih]

theorem forLines_break (h : Host) (mode : Mode) (pre post : List String) (line : String)
    (hb : trim line ≠ "") (hr : recordMapLine h line = true) (st : StreamState) :
    forLines h mode st (pre ++ line :: post) = forLines h mode st (pre ++ [line]) := by
  induction pre generalizing st with
  | nil =>
    rw [List.nil_append, List.nil_append, forLines_cons, forLines_cons]
    simp [hb, hr]
  | cons p pre ih =>
    rw [List.cons_append, List.cons_append, forLines_cons, forLines_cons, ih, ih]

/-! ### Lines of chunks -/

theorem split_data (s : String) : split s = (splitChars s.data).map String.mk := rfl

theorem split_mk_append_newline (a b : List Char) :
    split (String.mk (a ++ '\n' :: b)) = split (String.mk a) ++ split (String.mk b) := by
  simp [split, splitChars_append_newline]

theorem mem_split_no_newline (s l : String) (hl : l ∈ split s) : '\n' ∉ l.data := by
  simp only [split, List.mem_map] at hl
  obtain ⟨cs, hcs, rfl⟩ := hl
  exact not_mem_of_mem_splitChars s.data cs hcs

theorem split_joinLines (ls : List String) (hne : ls ≠ [])
    (hl : ∀ l ∈ ls, '\n' ∉ l.data) : split (joinLines ls) = ls := by
  unfold split joinLines
  rw [splitChars_intercalate]
  · simp [List.map_map, Function.comp_def]
  · simpa using hne
  · intro l hl2
    simp only [List.mem_map] at hl2
    obtain ⟨s, hs, rfl⟩ := hl2
    exact hl s hs

theorem trim_empty : trim "" = "" := by decide

theorem onData_empty (h : Host) (mode : Mode) (st : StreamState) : onData h mode st "" = st := by
  have hs : split "" = [""] := by decide
  rw [onData, hs, forLines_blank h mode st "" trim_empty]

/-- Feeding chunks that end at line boundaries equals feeding their
concatenation, when no line carries `recordMap`. -/
theorem onChunks_eq_onData (h : Host) (mode : Mode) (chunks : List String)
    (hcut : ∀ c ∈ chunks.dropLast, endsWithNewline c = true)
    (hrec : ∀ line ∈ split (String.join chunks), recordMapLine h line = false)
    (st : StreamState) :
    onChunks h mode st chunks = onData h mode st (String.join chunks) := by
  induction chunks generalizing st with
  | nil =>
    have : String.join [] = "" := by decide
    rw [this, onData_empty]; rfl
  | cons c rest ih =>
    cases rest with
    | nil =>
      have : String.join [c] = c := by
        apply String.ext; simp
      rw [this]; rfl
    | cons c2 rest2 =>
      have hc : endsWithNewline c = true := hcut c (by simp)
      simp only [endsWithNewline, beq_iff_eq] at hc
      obtain ⟨a, ha⟩ := List.getLast?_eq_some_iff.mp hc
      have hj : String.join (c :: c2 :: rest2)
          = String.mk (a ++ '\n' :: (String.join (c2 :: rest2)).data) := by
        apply String.ext
        simp [ha]
      have hcs : c = String.mk (a ++ '\n' :: []) := by
        apply String.ext; simp [ha]
      have hsplit : split (String.join (c :: c2 :: rest2))
          = split (String.mk a) ++ split (String.join (c2 :: rest2)) := by
        rw [hj, split_mk_append_newline]
      have hc_split : split c = split (String.mk a) ++ [""] := by
        rw [hcs, split_mk_append_newline]
        have : split (String.mk []) = [""] := by decide
        rw [this]
      have hrecA : ∀ l ∈ split (String.mk a), recordMapLine h l = false := by
        intro l hl
        exact hrec l (by rw [hsplit]; simp [hl])
      have hrecR : ∀ l ∈ split (String.join (c2 :: rest2)), recordMapLine h l = false := by
        intro l hl
        exact hrec l (by rw [hsplit]; simp [hl])
      have hcutR : ∀ x ∈ (c2 :: rest2).dropLast, endsWithNewline x = true := by
        intro x hx
        exact hcut x (by simp [List.dropLast, hx])
      have hstep : onData h mode st c = forLines h mode st (split (String.mk a)) := by
        rw [onData, hc_split, forLines_append h mode _ _ hrecA,
          forLines_blank h mode _ "" trim_empty]
      show onChunks h mode (onData h mode st c) (c2 :: rest2) = _
      rw [ih hcutR hrecR, hstep, onData, onData, hsplit, forLines_append h mode _ _ hrecA]

/-- A malformed line never changes what the handler does. -/
theorem onData_removeMalformed (h : Host) (mode : Mode) (st : StreamState) (chunk : String) :
    onData h mode st chunk = onData h mode st (removeMalformed h chunk) := by
  unfold removeMalformed
  by_cases hne : (split chunk).filter (fun line => !malformed h line) = []
  · rw [hne]
    have hj : joinLines [] = "" := by decide
    rw [hj, onData_empty, onData, ← forLines_filter, hne]
    rfl
  · rw [onData, onData, split_joinLines _ hne, forLines_filter]
    intro l hl
    exact mem_split_no_newline chunk l (List.mem_of_mem_filter hl)

/-- The handler stops at a line that carries `recordMap`. -/
theorem onData_recordMap (h : Host) (mode : Mode) (st : StreamState) (chunk : String)
    (pre post : List String) (line : String)
    (hs : split chunk = pre ++ line :: post) (hb : trim line ≠ "")
    (hr : recordMapLine h line = true) :
    onData h mode st chunk = onData h mode st (joinLines (pre ++ [line])) := by
  have hl : ∀ l ∈ pre ++ [line], '\n' ∉ l.data := by
    intro l hl
    apply mem_split_no_newline chunk l
    rw [hs]
    simp only [List.mem_append, List.mem_singleton] at hl
    rcases hl with hl | hl <;> simp [hl]
  rw [onData, onData, split_joinLines _ (by simp) hl, hs, forLines_break h mode pre post line hb hr]

/-! ### What the data handlers do to the state -/

theorem join_append (xs ys : List String) :
    String.join (xs ++ ys) = String.join xs ++ String.join ys := by
  apply String.ext; simp

theorem Yields.refl (h : Host) (mode : Mode) (st : StreamState) : Yields h mode st st [] := by
  refine ⟨by simp, ?_, [], List.Forall₂.nil, by simp⟩
  apply String.ext; simp

theorem Yields.trans {h : Host} {mode : Mode} {st st1 st2 : StreamState} {fs gs : List String}
    (h1 : Yields h mode st st1 fs) (h2 : Yields h mode st1 st2 gs) :
    Yields h mode st st2 (fs ++ gs) := by
  obtain ⟨hf1, hc1, ev1, hr1, he1⟩ := h1
  obtain ⟨hf2, hc2, ev2, hr2, he2⟩ := h2
  refine ⟨by rw [hf2, hf1, List.append_assoc], ?_, ev1 ++ ev2, List.rel_append hr1 hr2, ?_⟩
  · rw [hc2, hc1, join_append, String.append_assoc]
  · rw [he2, he1]
    cases mode.isStreamingMode <;> simp

theorem isContentChunk_create (h : Host) (t : Ticks) (c : String) :
    isContentChunk (createChatCompletionChunk h t
      (.arr [createChoice (createChoiceDelta (.str c)) .undefined]) .undefined).1 c := by
  constructor <;> rfl

theorem emitContent_yields (h : Host) (mode : Mode) (st : StreamState) (c : String) :
    Yields h mode st (emitContent h mode st c) [c] := by
  refine ⟨rfl, ?_, [_], List.Forall₂.cons (isContentChunk_create h st.ticks c) List.Forall₂.nil, ?_⟩
  · have hj : String.join [c] = c := by apply String.ext; simp
    rw [hj]; rfl
  · simp only [emitContent, writeChunk, List.map_cons, List.map_nil]

theorem stepLine_yields (h : Host) (mode : Mode) (st : StreamState) (line : String) :
    ∃ fs, Yields h mode st (stepLine h mode st line) fs := by
  unfold stepLine
  cases lineContent h line with
  | none => exact ⟨[], Yields.refl h mode st⟩
  | some c => exact ⟨[c], emitContent_yields h mode st c⟩

theorem forLines_yields (h : Host) (mode : Mode) (lines : List String) (st : StreamState) :
    ∃ fs, Yields h mode st (forLines h mode st lines) fs := by
  induction lines generalizing st with
  | nil => exact ⟨[], Yields.refl h mode st⟩
  | cons line rest ih =>
    rw [forLines_cons]
    obtain ⟨fs, hfs⟩ := stepLine_yields h mode st line
    split
    · exact ih st
    · split
      · exact ⟨fs, hfs⟩
      · obtain ⟨gs, hgs⟩ := ih (stepLine h mode st line)
        exact ⟨fs ++ gs, hfs.trans hgs⟩

theorem onChunks_yields (h : Host) (mode : Mode) (chunks : List String) (st : StreamState) :
    ∃ fs, Yields h mode st (onChunks h mode st chunks) fs := by
  induction chunks generalizing st with
  | nil => exact ⟨[], Yields.refl h mode st⟩
  | cons c rest ih =>
    obtain ⟨fs, hfs⟩ := forLines_yields h mode (split c) st
    obtain ⟨gs, hgs⟩ := ih (onData h mode st c)
    exact ⟨fs ++ gs, hfs.trans hgs⟩

theorem writes_append (xs ys : List Effect) : writes (xs ++ ys) = writes xs ++ writes ys := by
  induction xs with
  | nil => rfl
  | cons e xs ih => cases e <;> simp [writes, ih]

theorem writes_map_writeChunk (h : Host) (events : List JSValue) :
    writes (events.map (writeChunk h)) = events.map fun e => sse (h.stringify e) := by
  induction events with
  | nil => rfl
  | cons e es ih => simp [writes, writeChunk, ih]

theorem clientCalls_append (xs ys : List Effect) :
    clientCalls (xs ++ ys) = clientCalls xs ++ clientCalls ys := by
  induction xs with
  | nil => rfl
  | cons e xs ih => cases e <;> simp [clientCalls, ih]

/-! ## The stream decoder -/

/-- C1 (as stated, refuted): chunk-boundary invariance fails. A cut inside a
line loses the fragment of that line: the two pieces are parsed separately and
neither is JSON. A cut after a line that carries `recordMap` lets the next
chunk yield a fragment that the whole payload, where the loop has stopped,
does not yield. -/
theorem chunk_cut_changes_fragments :
    (onChunks refHost .streaming (startState ⟨0, 0⟩ [])
        ["\x7b\"type\":\"markdown-chat\",", "\"value\":\"Hi\"\x7d\n"]).fragments = [] ∧
    (onData refHost .streaming (startState ⟨0, 0⟩ [])
        (String.join ["\x7b\"type\":\"markdown-chat\",", "\"value\":\"Hi\"\x7d\n"])).fragments
      = ["Hi"] ∧
    (onChunks refHost .streaming (startState ⟨0, 0⟩ [])
        ["\x7b\"recordMap\":\x7b\x7d\x7d\n",
          "\x7b\"type\":\"markdown-chat\",\"value\":\"Hi\"\x7d\n"]).fragments = ["Hi"] ∧
    (onData refHost .streaming (startState ⟨0, 0⟩ [])
        (String.join ["\x7b\"recordMap\":\x7b\x7d\x7d\n",
          "\x7b\"type\":\"markdown-chat\",\"value\":\"Hi\"\x7d\n"])).fragments = [] := by
  refine ⟨?_, ?_, ?_, ?_⟩ <;> decide

/-- C1 (amended): when every chunk but the last ends with a newline, so that
the cuts fall at line boundaries, and no line of the payload decodes to a
record with the `recordMap` field, running the `'data'` handler on the chunks
in order yields the same fragments as running it once on the whole payload. -/
theorem chunk_invariance_at_line_boundaries (h : Host) (mode : Mode) (st : StreamState)
    (chunks : List String)
    (hcut : ∀ c ∈ chunks.dropLast, endsWithNewline c = true)
    (hrec : ∀ line ∈ split (String.join chunks), recordMapLine h line = false) :
    (onChunks h mode st chunks).fragments
      = (onData h mode st (String.join chunks)).fragments := by
  rw [onChunks_eq_onData h mode chunks hcut hrec st]

/-- Instance of the amended C1: a payload of two content lines cut after the
first line. -/
theorem chunk_invariance_at_line_boundaries_witness :
    (∀ c ∈ (["\x7b\"type\":\"markdown-chat\",\"value\":\"Hello\"\x7d\n",
        "\x7b\"type\":\"markdown-chat\",\"value\":\" world\"\x7d\n"] : List String).dropLast,
      endsWithNewline c = true) ∧
    (∀ line ∈ split (String.join ["\x7b\"type\":\"markdown-chat\",\"value\":\"Hello\"\x7d\n",
        "\x7b\"type\":\"markdown-chat\",\"value\":\" world\"\x7d\n"]),
      recordMapLine refHost line = false) ∧
    (onChunks refHost .streaming (startState ⟨0, 0⟩ [])
        ["\x7b\"type\":\"markdown-chat\",\"value\":\"Hello\"\x7d\n",
          "\x7b\"type\":\"markdown-chat\",\"value\":\" world\"\x7d\n"]).fragments
      = (onData refHost .streaming (startState ⟨0, 0⟩ [])
          (String.join ["\x7b\"type\":\"markdown-chat\",\"value\":\"Hello\"\x7d\n",
            "\x7b\"type\":\"markdown-chat\",\"value\":\" world\"\x7d\n"])).fragments :=
  ⟨by decide, by decide,
    chunk_invariance_at_line_boundaries refHost .streaming (startState ⟨0, 0⟩ []) _
      (by decide) (by decide)⟩

/-- C6: a non-blank line that is not valid JSON is discarded and the loop goes
on: the handler, a total function, leaves the same fragments, and the same
state altogether, as on the chunk without its malformed lines. -/
theorem malformed_lines_are_skipped (h : Host) (mode : Mode) (st : StreamState)
    (chunk : String) :
    (onData h mode st chunk).fragments
        = (onData h mode st (removeMalformed h chunk)).fragments ∧
      onData h mode st chunk = onData h mode st (removeMalformed h chunk) := by
  rw [← onData_removeMalformed h mode st chunk]
  exact ⟨rfl, rfl⟩

/-- C10: once a non-blank line decodes to a record with the `recordMap` field,
the later lines of the chunk yield nothing: the handler, a total function,
leaves the state, and so the fragments, of the chunk cut after that line. -/
theorem recordMap_ends_chunk (h : Host) (mode : Mode) (st : StreamState) (chunk : String)
    (pre post : List String) (line : String)
    (hs : split chunk = pre ++ line :: post) (hb : trim line ≠ "")
    (hr : recordMapLine h line = true) :
    (onData h mode st chunk).fragments
        = (onData h mode st (joinLines (pre ++ [line]))).fragments ∧
      onData h mode st chunk = onData h mode st (joinLines (pre ++ [line])) := by
  rw [← onData_recordMap h mode st chunk pre post line hs hb hr]
  exact ⟨rfl, rfl⟩

/-- Instance of C10: a content line, a `recordMap` line and a content line
that is never read. -/
theorem recordMap_ends_chunk_witness :
    split "\x7b\"type\":\"markdown-chat\",\"value\":\"a\"\x7d\n\x7b\"recordMap\":\x7b\x7d\x7d\n\x7b\"type\":\"markdown-chat\",\"value\":\"b\"\x7d"
      = ["\x7b\"type\":\"markdown-chat\",\"value\":\"a\"\x7d"] ++
          "\x7b\"recordMap\":\x7b\x7d\x7d" ::
            ["\x7b\"type\":\"markdown-chat\",\"value\":\"b\"\x7d"] ∧
    trim "\x7b\"recordMap\":\x7b\x7d\x7d" ≠ "" ∧
    recordMapLine refHost "\x7b\"recordMap\":\x7b\x7d\x7d" = true ∧
    (onData refHost .streaming (startState ⟨0, 0⟩ [])
        "\x7b\"type\":\"markdown-chat\",\"value\":\"a\"\x7d\n\x7b\"recordMap\":\x7b\x7d\x7d\n\x7b\"type\":\"markdown-chat\",\"value\":\"b\"\x7d").fragments
      = ["a"] :=
  ⟨by decide, by decide, by decide,
    ((recordMap_ends_chunk refHost .streaming (startState ⟨0, 0⟩ []) _
      ["\x7b\"type\":\"markdown-chat\",\"value\":\"a\"\x7d"]
      ["\x7b\"type\":\"markdown-chat\",\"value\":\"b\"\x7d"]
      "\x7b\"recordMap\":\x7b\x7d\x7d" (by decide) (by decide) (by decide)).1).trans
      (by decide)⟩

/-! ## The response emitter -/

theorem isStopChunk_create (h : Host) (t : Ticks) :
    isStopChunk (createChatCompletionChunk h t
      (.arr [createChoice (createChoiceDelta .undefined) (.str "stop")]) .undefined).1 := by
  constructor <;> rfl

theorem writes_openStream (h : Host) (mode : Mode) (t : Ticks) (body : JSValue) :
    writes (openStream h mode t body).effects = [] := by
  cases mode <;> rfl

theorem clientCalls_openStream (h : Host) (requestData : JSValue) (t : Ticks)
    (body : JSValue) :
    clientCalls (openStream h (.buffered requestData) t body).effects = [] := rfl

/-- C4: in streaming mode, after the fragments `f1..fn` of the upstream stream
and its normal end, the `res.write` calls are, in order, one event per
fragment whose chunk has object `chat.completion.chunk` and the single choice
`index 0`, `delta.content = fi`, `finish_reason null`; one event whose chunk
has the delta `createChoiceDelta()` (content `null`) and `finish_reason`
`stop`; and the sentinel `data: [DONE]` — `n + 2` writes. -/
theorem streaming_writes (h : Host) (t : Ticks) (chunks : List String) (body : JSValue) :
    ∃ (events : List JSValue) (stop : JSValue),
      writes (streamNotionResponse h .streaming t (.stream chunks .end_) body).effects
          = events.map (fun e => sse (h.stringify e)) ++
              [sse (h.stringify stop), "data: [DONE]\n\n"] ∧
        List.Forall₂ isContentChunk events
          (streamNotionResponse h .streaming t (.stream chunks .end_) body).fragments ∧
        isStopChunk stop ∧
        (writes (streamNotionResponse h .streaming t (.stream chunks .end_) body).effects).length
          = (streamNotionResponse h .streaming t (.stream chunks .end_) body).fragments.length
              + 2 := by
  obtain ⟨fs, hf, -, events, hr, he⟩ :=
    onChunks_yields h .streaming chunks (openStream h .streaming t body)
  have hfr : (streamNotionResponse h .streaming t (.stream chunks .end_) body).fragments = fs := by
    show (onChunks h .streaming (openStream h .streaming t body) chunks).fragments = fs
    rw [hf]; rfl
  have hw : writes (streamNotionResponse h .streaming t (.stream chunks .end_) body).effects
      = events.map (fun e => sse (h.stringify e)) ++
          [sse (h.stringify (createChatCompletionChunk h
            (dateNow h (onChunks h .streaming (openStream h .streaming t body) chunks).ticks).2
            (.arr [createChoice (createChoiceDelta .undefined) (.str "stop")]) .undefined).1),
            "data: [DONE]\n\n"] := by
    show writes ((onChunks h .streaming (openStream h .streaming t body) chunks).effects ++ _) = _
    rw [he]
    simp only [Mode.isStreamingMode, if_true, writes_append, writes_openStream,
      writes_map_writeChunk, List.nil_append]
    rfl
  refine ⟨events, _, hw, ?_, isStopChunk_create h _, ?_⟩
  · rw [hfr]; exact hr
  · rw [hw, hfr, ← hr.length_eq]; simp

theorem onEnd_buffered (h : Host) (requestData : JSValue) (st : StreamState) :
    ∃ response : JSValue,
      (onEnd h (.buffered requestData) st).effects = st.effects ++ [.json response] ∧
      (onEnd h (.buffered requestData) st).fragments = st.fragments ∧
      response.prop "object" = .str "chat.completion" ∧
      response.prop "model" = requestData.prop "model" ∧
      response.prop "choices" =
        .arr [.obj [("index", .ofNat 0),
          ("message", .obj [("role", .str "assistant"),
            ("content", .str st.fullResponseContent)]),
          ("finish_reason", .str "stop")]] ∧
      response.prop "usage" =
        .obj [("prompt_tokens", .null), ("completion_tokens", .null),
          ("total_tokens", .null)] :=
  ⟨_, rfl, rfl, rfl, rfl, rfl, rfl⟩

/-- C5: in buffered mode, whatever prefix of the upstream chunks has arrived,
no call has been made on the client response; after the normal end exactly one
call has been made, `res.json` with a response whose object is
`chat.completion`, whose model is the model of the request, whose single
choice carries the assistant message with the concatenation of the fragments
and `finish_reason` `stop`, and whose three usage fields are `null`. -/
theorem buffered_response (h : Host) (t : Ticks) (chunks : List String)
    (body requestData : JSValue) :
    (∀ k : Nat, clientCalls (onChunks h (.buffered requestData)
        (openStream h (.buffered requestData) t body) (chunks.take k)).effects = []) ∧
    ∃ response : JSValue,
      clientCalls (streamNotionResponse h (.buffered requestData) t
          (.stream chunks .end_) body).effects = [.json response] ∧
        response.prop "object" = .str "chat.completion" ∧
        response.prop "model" = requestData.prop "model" ∧
        response.prop "choices" =
          .arr [.obj [("index", .ofNat 0),
            ("message", .obj [("role", .str "assistant"),
              ("content", .str (String.join (streamNotionResponse h (.buffered requestData) t
                (.stream chunks .end_) body).fragments))]),
            ("finish_reason", .str "stop")]] ∧
        response.prop "usage" =
          .obj [("prompt_tokens", .null), ("completion_tokens", .null),
            ("total_tokens", .null)] := by
  constructor
  · intro k
    obtain ⟨fs, -, -, events, -, he⟩ := onChunks_yields h (.buffered requestData)
      (chunks.take k) (openStream h (.buffered requestData) t body)
    rw [he]
    rfl
  · obtain ⟨fs, hf, hc, events, -, he⟩ := onChunks_yields h (.buffered requestData)
      chunks (openStream h (.buffered requestData) t body)
    obtain ⟨response, hE, hF, hobj, hmodel, hchoices, husage⟩ := onEnd_buffered h requestData
      (onChunks h (.buffered requestData) (openStream h (.buffered requestData) t body) chunks)
    have hfull : (onChunks h (.buffered requestData)
        (openStream h (.buffered requestData) t body) chunks).fullResponseContent
          = String.join fs := by
      rw [hc]
      show "" ++ String.join fs = String.join fs
      apply String.ext; simp
    have hfr : (streamNotionResponse h (.buffered requestData) t
        (.stream chunks .end_) body).fragments = fs := by
      show (onEnd h (.buffered requestData) _).fragments = fs
      rw [hF, hf]; rfl
    refine ⟨response, ?_, hobj, hmodel, ?_, husage⟩
    · show clientCalls (onEnd h (.buffered requestData) _).effects = _
      rw [hE, clientCalls_append, he]
      rfl
    · rw [hfr, ← hfull]; exact hchoices

/-! ## The message translator -/

theorem isChatMessage_obj {m : JSValue} (hm : isChatMessage m = true) :
    ∃ fields, m = .obj fields := by
  cases m <;> simp [isChatMessage] at hm
  exact ⟨_, rfl⟩

theorem pushMessages_eq (ms : List JSValue) (hv : ∀ m ∈ ms, isChatMessage m = true)
    (transcript : List JSValue) :
    pushMessages transcript ms = .ok (transcript ++ ms.map transcriptItem) := by
  induction ms generalizing transcript with
  | nil => simp [pushMessages]
  | cons m rest ih =>
    obtain ⟨fields, rfl⟩ := isChatMessage_obj (hv m (by simp))
    have hrest : ∀ x ∈ rest, isChatMessage x = true := fun x hx => hv x (by simp [hx])
    rw [pushMessages]
    simp only [JSValue.getProp]
    by_cases hr : strictEqStr (JSValue.lookup "role" fields) "assistant" = true
    · simp only [hr, if_true]
      have hi : createNotionTranscriptItem "markdown-chat" (JSValue.lookup "content" fields)
          = .ok (.obj [("type", .str "markdown-chat"),
              ("value", JSValue.lookup "content" fields)]) := by
        rfl
      rw [hi]
      simp only
      rw [ih hrest]
      simp [transcriptItem, JSValue.prop, hr]
    · simp only [hr]
      have hi : createNotionTranscriptItem "user"
          (.arr [.arr [JSValue.lookup "content" fields]])
          = .ok (.obj [("type", .str "user"),
              ("value", .arr [.arr [JSValue.lookup "content" fields]])]) := by
        rfl
      simp only [Bool.false_eq_true, if_false]
      rw [hi]
      simp only
      rw [ih hrest]
      simp [transcriptItem, JSValue.prop, hr]

theorem buildNotionRequest_eq (h : Host) (cfg : Config) (t : Ticks)
    (fields : List (String × JSValue)) (ms : List JSValue)
    (hm : JSValue.lookup "messages" fields = .arr ms)
    (hv : ∀ m ∈ ms, isChatMessage m = true) :
    buildNotionRequest h cfg t (.obj fields) =
      .ok (createNotionRequestBody h t cfg.NOTION_SPACE_ID
        (.obj [("type", .str "config"),
            ("value", .obj [("type", .str "markdown-chat"),
              ("model", JSValue.lookup "notion_model" fields)])] :: ms.map transcriptItem)) := by
  have hc : createNotionTranscriptItem "config"
      (createNotionTranscriptConfigValue (JSValue.lookup "notion_model" fields))
      = .ok (.obj [("type", .str "config"),
          ("value", .obj [("type", .str "markdown-chat"),
            ("model", JSValue.lookup "notion_model" fields)])]) := by
    rfl
  unfold buildNotionRequest
  simp only [JSValue.getProp, hc, hm, iterate, pushMessages_eq ms hv]
  rfl

/-- C2: for valid messages and any backend model, `buildNotionRequest` returns
a body whose transcript has `1 + n` items: the config item
`{type: 'config', value: {type: 'markdown-chat', model: notion_model}}` first,
then the item of each message, each computed from that message alone, in the
order of the messages. -/
theorem transcript_shape (h : Host) (cfg : Config) (t : Ticks)
    (fields : List (String × JSValue)) (ms : List JSValue)
    (hm : JSValue.lookup "messages" fields = .arr ms)
    (hv : ∀ m ∈ ms, isChatMessage m = true) :
    ∃ (body : JSValue) (t1 : Ticks) (transcript : List JSValue),
      buildNotionRequest h cfg t (.obj fields) = .ok (body, t1) ∧
        body.prop "transcript" = .arr transcript ∧
        transcript.length = 1 + ms.length ∧
        transcript.head? = some (.obj [("type", .str "config"),
          ("value", .obj [("type", .str "markdown-chat"),
            ("model", JSValue.lookup "notion_model" fields)])]) ∧
        transcript.tail = ms.map transcriptItem ∧
        ∀ i (hi : i < ms.length), transcript[i + 1]? = some (transcriptItem ms[i]) := by
  refine ⟨_, _, _, buildNotionRequest_eq h cfg t fields ms hm hv, rfl, ?_, rfl, rfl, ?_⟩
  · simp [Nat.add_comm]
  · intro i hi
    simp [hi]

/-- Instance of C2: a user message followed by an assistant message. -/
theorem transcript_shape_witness :
    JSValue.lookup "messages"
        [("messages", .arr [.obj [("role", .str "user"), ("content", .str "Hi")],
            .obj [("role", .str "assistant"), ("content", .str "Hello")]]),
          ("notion_model", .str "anthropic-opus-4")]
      = .arr [.obj [("role", .str "user"), ("content", .str "Hi")],
          .obj [("role", .str "assistant"), ("content", .str "Hello")]] ∧
    (∀ m ∈ [JSValue.obj [("role", .str "user"), ("content", .str "Hi")],
        .obj [("role", .str "assistant"), ("content", .str "Hello")]],
      isChatMessage m = true) ∧
    ∃ (body : JSValue) (t1 : Ticks) (transcript : List JSValue),
      buildNotionRequest refHost ⟨"cookie", "space", "token"⟩ ⟨0, 0⟩
          (.obj [("messages", .arr [.obj [("role", .str "user"), ("content", .str "Hi")],
              .obj [("role", .str "assistant"), ("content", .str "Hello")]]),
            ("notion_model", .str "anthropic-opus-4")]) = .ok (body, t1) ∧
        body.prop "transcript" = .arr transcript ∧
        transcript.length = 3 :=
  ⟨rfl, by decide,
    let ⟨body, t1, transcript, hb, ht, hl, _⟩ :=
      transcript_shape refHost ⟨"cookie", "space", "token"⟩ ⟨0, 0⟩
        [("messages", .arr [.obj [("role", .str "user"), ("content", .str "Hi")],
            .obj [("role", .str "assistant"), ("content", .str "Hello")]]),
          ("notion_model", .str "anthropic-opus-4")]
        [.obj [("role", .str "user"), ("content", .str "Hi")],
          .obj [("role", .str "assistant"), ("content", .str "Hello")]] rfl (by decide)
    ⟨body, t1, transcript, hb, ht, hl⟩⟩

theorem getElem?_append_cons {α : Type} (xs ys : List α) (x : α) :
    (xs ++ x :: ys)[xs.length]? = some x := by
  induction xs with
  | nil => simp
  | cons a xs ih => simpa using ih

/-- C3: the item `buildNotionRequest` produces for a message `m` is
`{type: 'markdown-chat', value: m.content}` when `m.role` is `assistant`, and
`{type: 'user', value: [[m.content]]}` for every other role. -/
theorem message_item (h : Host) (cfg : Config) (t : Ticks)
    (fields : List (String × JSValue)) (pre post : List JSValue) (m : JSValue)
    (hm : JSValue.lookup "messages" fields = .arr (pre ++ m :: post))
    (hv : ∀ x ∈ pre ++ m :: post, isChatMessage x = true) :
    ∃ (body : JSValue) (t1 : Ticks) (transcript : List JSValue),
      buildNotionRequest h cfg t (.obj fields) = .ok (body, t1) ∧
        body.prop "transcript" = .arr transcript ∧
        (m.prop "role" = .str "assistant" →
          transcript[pre.length + 1]? =
            some (.obj [("type", .str "markdown-chat"), ("value", m.prop "content")])) ∧
        (m.prop "role" ≠ .str "assistant" →
          transcript[pre.length + 1]? =
            some (.obj [("type", .str "user"), ("value", .arr [.arr [m.prop "content"]])])) := by
  refine ⟨_, _, _, buildNotionRequest_eq h cfg t fields _ hm hv, rfl, ?_, ?_⟩
  · intro hr
    have hg := getElem?_append_cons (pre.map transcriptItem) (post.map transcriptItem)
      (transcriptItem m)
    simp only [List.length_map] at hg
    simpa [transcriptItem, hr, strictEqStr] using hg
  · intro hr
    have hs : strictEqStr (m.prop "role") "assistant" = false := by
      cases hp : m.prop "role" <;> simp [strictEqStr]
      rename_i s
      intro hs
      exact hr (by rw [hp, hs])
    have hg := getElem?_append_cons (pre.map transcriptItem) (post.map transcriptItem)
      (transcriptItem m)
    simp only [List.length_map] at hg
    simpa [transcriptItem, hs] using hg

/-- Instance of C3: the assistant message of a two-message request. -/
theorem message_item_witness :
    JSValue.lookup "messages"
        [("messages", .arr ([.obj [("role", .str "system"), ("content", .str "Be brief")]] ++
            .obj [("role", .str "assistant"), ("content", .str "Hello")] :: [])),
          ("notion_model", .str "anthropic-opus-4")]
      = .arr ([.obj [("role", .str "system"), ("content", .str "Be brief")]] ++
          .obj [("role", .str "assistant"), ("content", .str "Hello")] :: []) ∧
    (∀ x ∈ [JSValue.obj [("role", .str "system"), ("content", .str "Be brief")]] ++
        .obj [("role", .str "assistant"), ("content", .str "Hello")] :: [],
      isChatMessage x = true) ∧
    ∃ (body : JSValue) (t1 : Ticks) (transcript : List JSValue),
      buildNotionRequest refHost ⟨"cookie", "space", "token"⟩ ⟨0, 0⟩
          (.obj [("messages",
              .arr ([.obj [("role", .str "system"), ("content", .str "Be brief")]] ++
                .obj [("role", .str "assistant"), ("content", .str "Hello")] :: [])),
            ("notion_model", .str "anthropic-opus-4")]) = .ok (body, t1) ∧
        body.prop "transcript" = .arr transcript ∧
        transcript[2]? =
          some (.obj [("type", .str "markdown-chat"), ("value", .str "Hello")]) :=
  ⟨rfl, by decide,
    let ⟨body, t1, transcript, hb, ht, ha, _⟩ :=
      message_item refHost ⟨"cookie", "space", "token"⟩ ⟨0, 0⟩
        [("messages", .arr ([.obj [("role", .str "system"), ("content", .str "Be brief")]] ++
            .obj [("role", .str "assistant"), ("content", .str "Hello")] :: [])),
          ("notion_model", .str "anthropic-opus-4")]
        [.obj [("role", .str "system"), ("content", .str "Be brief")]] []
        (.obj [("role", .str "assistant"), ("content", .str "Hello")]) (by rfl) (by decide)
    ⟨body, t1, transcript, hb, ht, ha rfl⟩⟩

/-! ## Validation -/

theorem typeof_obj (fields : List (String × JSValue)) :
    (JSValue.obj fields).typeof = "object" := rfl

theorem typeof_arr (items : List JSValue) : (JSValue.arr items).typeof = "object" := rfl

theorem toBoolean_obj (fields : List (String × JSValue)) :
    (JSValue.obj fields).toBoolean = true := rfl

theorem toBoolean_arr (items : List JSValue) : (JSValue.arr items).toBoolean = true := rfl

theorem validateChatMessage_ok {m : JSValue} (hm : isChatMessage m = true) :
    validateChatMessage m = .ok m := by
  obtain ⟨fields, rfl⟩ := isChatMessage_obj hm
  simp only [isChatMessage, Bool.and_eq_true, beq_iff_eq] at hm
  simp [validateChatMessage, toBoolean_obj, typeof_obj, JSValue.getProp, hm.1, hm.2]

theorem validateChatMessage_error {m : JSValue} (hm : isChatMessage m = false) :
    ∃ e, validateChatMessage m = .error e := by
  cases m with
  | obj fields =>
    simp only [isChatMessage, Bool.and_eq_false_iff] at hm
    simp only [validateChatMessage, toBoolean_obj, typeof_obj, JSValue.getProp]
    rcases hm with hm | hm
    · simp [hm]
    · by_cases hr : includes ["system", "user", "assistant"] (JSValue.lookup "role" fields) = true
      · have : ((JSValue.lookup "content" fields).typeof != "string") = true := by
          simpa [bne] using hm
        simp [hr, this]
      · simp [hr]
  | arr items =>
    simp [validateChatMessage, toBoolean_arr, typeof_arr, JSValue.getProp, includes]
  | undefined => simp [validateChatMessage, JSValue.toBoolean]
  | null => simp [validateChatMessage, JSValue.toBoolean]
  | bool b => simp [validateChatMessage, JSValue.typeof]
  | num x => simp [validateChatMessage, JSValue.typeof]
  | str s => simp [validateChatMessage, JSValue.typeof]

theorem forEach_validate_ok (ms : List JSValue) (hv : ms.all isChatMessage = true) :
    forEach validateChatMessage ms = .ok () := by
  induction ms with
  | nil => rfl
  | cons m rest ih =>
    simp only [List.all_cons, Bool.and_eq_true] at hv
    rw [forEach, validateChatMessage_ok hv.1]
    exact ih hv.2

theorem forEach_validate_error (ms : List JSValue) (hv : ms.all isChatMessage = false) :
    ∃ e, forEach validateChatMessage ms = .error e := by
  induction ms with
  | nil => simp at hv
  | cons m rest ih =>
    rw [forEach]
    cases hm : isChatMessage m with
    | false =>
      obtain ⟨e, he⟩ := validateChatMessage_error hm
      exact ⟨e, by rw [he]⟩
    | true =>
      rw [validateChatMessage_ok hm]
      simp only [List.all_cons, hm, Bool.true_and] at hv
      exact ih hv

theorem lookup_assign_ne (key k : String) (x : JSValue) (fields : List (String × JSValue))
    (hk : k ≠ key) : JSValue.lookup key (JSValue.assign k x fields) = JSValue.lookup key fields := by
  induction fields with
  | nil => simp [JSValue.assign, JSValue.lookup, hk]
  | cons f rest ih =>
    obtain ⟨k1, v1⟩ := f
    by_cases h1 : k1 = k
    · subst h1
      simp [JSValue.assign, JSValue.lookup, hk]
    · by_cases h2 : k1 = key
      · subst h2
        simp [JSValue.assign, JSValue.lookup, h1]
      · simp [JSValue.assign, JSValue.lookup, h1, h2, ih]

theorem validate_ok (fields : List (String × JSValue)) (ms : List JSValue)
    (hm : JSValue.lookup "messages" fields = .arr ms) (hne : ms ≠ [])
    (hv : ms.all isChatMessage = true) :
    ∃ fields1, validateChatCompletionRequest (.obj fields) = .ok (.obj fields1) ∧
      JSValue.lookup "messages" fields1 = .arr ms := by
  have hlen : ¬ ms.length = 0 := by
    intro h0; exact hne (List.length_eq_zero.mp h0)
  have h1 : ∃ a b c, validateChatCompletionRequest (.obj fields) =
      .ok (.obj (JSValue.assign "notion_model" c
        (JSValue.assign "stream" b (JSValue.assign "model" a fields)))) := by
    have h0 : (!(JSValue.obj fields).toBoolean || (JSValue.obj fields).typeof != "object")
        = false := rfl
    simp only [validateChatCompletionRequest, h0, Bool.false_eq_true, if_false,
      JSValue.getProp, hm, hlen, forEach_validate_ok ms hv, JSValue.setProp]
    simp only [bind, Except.bind, pure, Except.pure]
    exact ⟨_, _, _, rfl⟩
  obtain ⟨a, b, c, h1⟩ := h1
  refine ⟨_, h1, ?_⟩
  rw [lookup_assign_ne _ _ _ _ (by decide), lookup_assign_ne _ _ _ _ (by decide),
    lookup_assign_ne _ _ _ _ (by decide)]
  exact hm

theorem validate_error (body : JSValue) (hb : isChatRequest body = false) :
    ∃ e, validateChatCompletionRequest body = .error e := by
  cases body with
  | obj fields =>
    simp only [validateChatCompletionRequest, toBoolean_obj, typeof_obj, JSValue.getProp]
    simp only [isChatRequest] at hb
    cases hm : JSValue.lookup "messages" fields with
    | arr ms =>
      rw [hm] at hb
      simp only [Bool.and_eq_false_iff, Bool.not_eq_false', List.isEmpty_iff] at hb
      by_cases h0 : ms.length = 0
      · simp [h0]
      · rcases hb with hb | hb
        · exact absurd (by rw [hb]; rfl) h0
        · obtain ⟨e, he⟩ := forEach_validate_error ms hb
          simp [h0, he]
    | _ => simp
  | arr items =>
    simp [validateChatCompletionRequest, toBoolean_arr, typeof_arr, JSValue.getProp]
  | undefined => simp [validateChatCompletionRequest, JSValue.toBoolean]
  | null => simp [validateChatCompletionRequest, JSValue.toBoolean]
  | bool b => simp [validateChatCompletionRequest, JSValue.typeof]
  | num x => simp [validateChatCompletionRequest, JSValue.typeof]
  | str s => simp [validateChatCompletionRequest, JSValue.typeof]

theorem isChatRequest_obj {body : JSValue} (hb : isChatRequest body = true) :
    ∃ fields ms, body = .obj fields ∧ JSValue.lookup "messages" fields = .arr ms ∧ ms ≠ [] ∧
      ms.all isChatMessage = true := by
  cases body with
  | obj fields =>
    simp only [isChatRequest] at hb
    cases hm : JSValue.lookup "messages" fields with
    | arr ms =>
      rw [hm] at hb
      simp only [Bool.and_eq_true, Bool.not_eq_true', List.isEmpty_eq_false] at hb
      exact ⟨fields, ms, rfl, hm, hb.1, hb.2⟩
    | _ => rw [hm] at hb; simp at hb
  | _ => simp [isChatRequest] at hb

/-- C7: `validateChatCompletionRequest` throws exactly when the body is not an
object whose `messages` is a non-empty array of objects with a role among
`system`, `user`, `assistant` and a string content; on every other body it
returns the request, with the same `messages`. -/
theorem validate_throws_iff (body : JSValue) :
    ((∃ e, validateChatCompletionRequest body = .error e) ↔ isChatRequest body = false) ∧
    (isChatRequest body = true →
      ∃ request, validateChatCompletionRequest body = .ok request ∧
        request.getProp "messages" = body.getProp "messages") := by
  constructor
  · constructor
    · rintro ⟨e, he⟩
      cases hb : isChatRequest body with
      | false => rfl
      | true =>
        obtain ⟨fields, ms, rfl, hm, hne, hv⟩ := isChatRequest_obj hb
        obtain ⟨fields1, h1, -⟩ := validate_ok fields ms hm hne hv
        rw [h1] at he
        cases he
    · exact validate_error body
  · intro hb
    obtain ⟨fields, ms, rfl, hm, hne, hv⟩ := isChatRequest_obj hb
    obtain ⟨fields1, h1, h2⟩ := validate_ok fields ms hm hne hv
    exact ⟨_, h1, by simp [JSValue.getProp, h2, hm]⟩

/-- Instance of C7: a request with one user message is returned. -/
theorem validate_throws_iff_witness :
    isChatRequest (.obj [("messages", .arr [.obj [("role", .str "user"),
        ("content", .str "Hi")]])]) = true ∧
    ∃ request,
      validateChatCompletionRequest (.obj [("messages", .arr [.obj [("role", .str "user"),
        ("content", .str "Hi")]])]) = .ok request ∧
      request.getProp "messages" =
        (JSValue.obj [("messages", .arr [.obj [("role", .str "user"),
          ("content", .str "Hi")]])]).getProp "messages" :=
  ⟨by decide,
    (validate_throws_iff (.obj [("messages", .arr [.obj [("role", .str "user"),
      ("content", .str "Hi")]])])).2 (by decide)⟩

/-! ## The request handler and authentication -/

theorem isChatMessage_of_unrecognisedRole {m : JSValue} (hm : unrecognisedRole m = true) :
    isChatMessage m = false := by
  cases m with
  | obj fields =>
    simp only [unrecognisedRole, JSValue.prop, Bool.not_eq_true'] at hm
    simp [isChatMessage, hm]
  | _ => rfl

/-- C8 (as stated, refuted): with `NOTION_COOKIE` unset, its default, the
handler answers an authenticated request whose `messages` is empty with status
500 and type `server_error`, not with status 400: the cookie check comes before
the validation. -/
theorem empty_messages_without_cookie :
    chatCompletions refHost ⟨"", "space", "default_token"⟩ ⟨0, 0⟩ (.stream [] .end_)
        (.obj [("messages", .arr [])])
      = [.status 500,
          .json (errorBody "服务器配置错误: Notion cookie未设置" "server_error")] := by
  rfl

/-- C8 (amended): when `NOTION_COOKIE` is set, the handler answers a request
whose `messages` is an empty array, or contains a message with an unrecognised
role, with status 400 and a body `{error: {message, type:
'invalid_request_error'}}`, and makes no call of `axios.post`. -/
theorem invalid_request_rejected (h : Host) (cfg : Config) (t : Ticks) (up : Upstream)
    (body : JSValue) (ms : List JSValue)
    (hcookie : cfg.NOTION_COOKIE ≠ "")
    (hm : body.prop "messages" = .arr ms)
    (hbad : ms = [] ∨ ∃ m ∈ ms, unrecognisedRole m = true) :
    (∃ message, chatCompletions h cfg t up body =
      [.status 400, .json (errorBody message "invalid_request_error")]) ∧
    ∀ url b, Effect.post url b ∉ chatCompletions h cfg t up body := by
  have hreq : isChatRequest body = false := by
    cases body with
    | obj fields =>
      simp only [JSValue.prop] at hm
      simp only [isChatRequest, hm, Bool.and_eq_false_iff, Bool.not_eq_false',
        List.isEmpty_iff]
      rcases hbad with hbad | ⟨m, hmem, hrole⟩
      · exact Or.inl hbad
      · right
        rw [List.all_eq_false]
        exact ⟨m, hmem, by simp [isChatMessage_of_unrecognisedRole hrole]⟩
    | _ => rfl
  obtain ⟨e, he⟩ := validate_error body hreq
  have hc : (cfg.NOTION_COOKIE == "") = false := by simpa using hcookie
  have hres : chatCompletions h cfg t up body =
      [.status 400, .json (errorBody ("请求处理错误: " ++ e.message) "invalid_request_error")] := by
    simp only [chatCompletions, hc, he, Bool.false_eq_true, if_false]
  refine ⟨⟨_, hres⟩, ?_⟩
  intro url b
  rw [hres]
  simp

/-- Instance of the amended C8: a message with the role `tool`. -/
theorem invalid_request_rejected_witness :
    (⟨"cookie", "space", "default_token"⟩ : Config).NOTION_COOKIE ≠ "" ∧
    (JSValue.obj [("messages", .arr [.obj [("role", .str "tool"),
        ("content", .str "x")]])]).prop "messages"
      = .arr [.obj [("role", .str "tool"), ("content", .str "x")]] ∧
    ([.obj [("role", .str "tool"), ("content", .str "x")]] = ([] : List JSValue) ∨
      ∃ m ∈ [JSValue.obj [("role", .str "tool"), ("content", .str "x")]],
        unrecognisedRole m = true) ∧
    ((∃ message, chatCompletions refHost ⟨"cookie", "space", "default_token"⟩ ⟨0, 0⟩
        (.stream [] .end_)
        (.obj [("messages", .arr [.obj [("role", .str "tool"), ("content", .str "x")]])]) =
      [.status 400, .json (errorBody message "invalid_request_error")]) ∧
    ∀ url b, Effect.post url b ∉ chatCompletions refHost ⟨"cookie", "space", "default_token"⟩
        ⟨0, 0⟩ (.stream [] .end_)
        (.obj [("messages", .arr [.obj [("role", .str "tool"), ("content", .str "x")]])])) :=
  ⟨by decide, rfl, Or.inr ⟨_, List.mem_singleton.mpr rfl, by decide⟩,
    invalid_request_rejected refHost ⟨"cookie", "space", "default_token"⟩ ⟨0, 0⟩
      (.stream [] .end_) _ _ (by decide) rfl
      (Or.inr ⟨_, List.mem_singleton.mpr rfl, by decide⟩)⟩

theorem startsWith_append (p s : String) : startsWith (p ++ s) p = true := by
  simp [startsWith, List.isPrefixOf_iff_prefix]

theorem timingSafeEqual_self (a : List Nat) : timingSafeEqual a a = .ok true := by
  simp [timingSafeEqual]

/-- The header `Bearer <expected token>` passes `authenticate`. -/
theorem authenticate_exact_token (cfg : Config) :
    authenticate cfg (some ("Bearer " ++ cfg.EXPECTED_TOKEN)) = .ok .next := by
  have h1 : ("Bearer " ++ cfg.EXPECTED_TOKEN == "") = false := by
    rw [beq_eq_false_iff_ne]
    intro h
    have := congrArg String.data h
    simp at this
  have h2 : substring ("Bearer " ++ cfg.EXPECTED_TOKEN) 7 = cfg.EXPECTED_TOKEN := by
    apply String.ext
    simp [substring]
  simp only [authenticate, h1, startsWith_append, h2, timingSafeEqual_self]
  rfl

/-- A token whose UTF-8 encoding differs in length from that of the expected
token makes `authenticate` throw. -/
theorem authenticate_length_mismatch (cfg : Config) (token : String)
    (hlen : (bufferFrom token).length ≠ (bufferFrom cfg.EXPECTED_TOKEN).length) :
    authenticate cfg (some ("Bearer " ++ token))
      = .error (.RangeError "Input buffers must have the same byte length") := by
  have h1 : ("Bearer " ++ token == "") = false := by
    rw [beq_eq_false_iff_ne]
    intro h
    have := congrArg String.data h
    simp at this
  have h2 : substring ("Bearer " ++ token) 7 = token := by
    apply String.ext
    simp [substring]
  simp [authenticate, h1, startsWith_append, h2, timingSafeEqual, hlen]

/-- C9 (code defect): a token one character shorter or longer than the
expected token makes `crypto.timingSafeEqual` throw a `RangeError`, so
`authenticate` neither sends the 401 response nor calls `next`; a token of the
same length with one character substituted gets the 401 response. -/
theorem authenticate_throws_on_length_mismatch :
    authenticate ⟨"cookie", "space", "default_token"⟩ (some "Bearer default_toke")
      = .error (.RangeError "Input buffers must have the same byte length") ∧
    authenticate ⟨"cookie", "space", "default_token"⟩ (some "Bearer default_tokens")
      = .error (.RangeError "Input buffers must have the same byte length") ∧
    authenticate ⟨"cookie", "space", "default_token"⟩ (some "Bearer default_tokem")
      = .ok (.responded [.status 401,
          .json (errorBody "无效的身份验证凭据" "unauthorized")]) := by
  refine ⟨?_, ?_, ?_⟩ <;> rfl

end NotionProxy
